import Mathlib

/-!
Verification development for the `pam-keepassxc` session-unlock monitor
(`src/systemd/keepassxc-unlock.c`).  The C program is shallowly embedded:
D-Bus calls, file reads and `seteuid` outcomes become explicit oracle
inputs (`Option`/function fields of an environment record), and the
stateful pieces (effective uid, the recorded session lock/active flags)
become explicit state passing.  Every definition mirrors the control flow
of the corresponding C function.
-/

namespace KeepassxcUnlock

/-- Constant `MAX_PASSWORD_SIZE` from the C source: maximum allowed size of the
decrypted password plus one for the terminating null. -/
def MAX_PASSWORD_SIZE : Nat := 4096

/-- Function `is_locked`: reads the `LockedHint` property of the session.  The D-Bus
property read is modelled as `Option Bool`; the C function returns `true`
when the call fails (`result == NULL`), else the boolean in the variant. -/
def is_locked (lockedHintProp : Option Bool) : Bool :=
  match lockedHintProp with
  | none => true
  | some locked => locked

/-- Function `change_euid`: change the effective uid with error checking.  `ok u`
models whether `seteuid(u)` would succeed.  The C function is a no-op when
`geteuid() == uid`; on `seteuid` failure it logs and continues, except that
a failed switch back to uid 0 calls `exit(1)`, modelled as `none`. -/
def change_euid (ok : Nat → Bool) (uid euid : Nat) : Option Nat :=
  if euid = uid then some euid
  else if ok uid then some uid
  else if uid = 0 then none
  else some euid

/-- The `strcspn`-based truncation at the first newline used on the recorded
baseline line (`expected_sha512[strcspn(expected_sha512, "\n")] = 0`). -/
def trimNewline (s : String) : String :=
  String.mk (s.toList.takeWhile (fun c => c != '\n'))

/-- The desktop alert sent via `notify-send` on checksum mismatch: it
carries the offending process id and the resolved executable path. -/
structure Alert where
  pid : Nat
  exe : String
deriving DecidableEq, Repr

/-- The executable path reported in the mismatch alert: the `readlink`
target of `/proc/<pid>/exe` when `readlink` succeeds, else the
`/proc/<pid>/exe` link path itself. -/
def resolvedExe (exeRealPath : Option String) (pid : Nat) : String :=
  match exeRealPath with
  | some real => real
  | none => "/proc/" ++ toString pid ++ "/exe"

/-- Outcome of the inline integrity-verification block of
`unlock_databases` (baseline `fopen`, `sha512sum`, `fgets`, compare). -/
inductive VerifyStep where
  | missingBaseline
  | mismatchAlert (a : Alert)
  | verified
deriving DecidableEq, Repr

/-- The integrity-verification block of `unlock_databases`.
`baseline = none` models `fopen` of `keepassxc.sha512` failing (early
return, no alert); `baseline = some none` models `fgets` failing;
`exeHash = none` models `sha512sum` returning 0.  The C code sets
`mismatch = sha512sum(...) == 0 || !fgets(...) || g_strcmp0(...) != 0`
and on mismatch emits the `notify-send` alert with pid and resolved
executable path. -/
def verifyStage (baseline : Option (Option String)) (exeHash : Option String)
    (exeRealPath : Option String) (pid : Nat) : VerifyStep :=
  match baseline with
  | none => VerifyStep.missingBaseline
  | some baselineLine =>
    if exeHash.isNone ||
        (match baselineLine with
         | none => true
         | some expected => exeHash.getD "" != trimNewline expected) then
      VerifyStep.mismatchAlert ⟨pid, resolvedExe exeRealPath pid⟩
    else VerifyStep.verified

/-- Result type of the Executable Integrity Verifier as the spec states it. -/
inductive VerifyResult where
  | Match
  | Mismatch
deriving DecidableEq, Repr

/-- Modelled from the spec (section 4.2), for refinement comparison with
`verifyStage`: `Match` only if the baseline file exists and is readable,
the executable could be hashed successfully, and the digests are
byte-for-byte equal after trimming line-terminators; any other case is
`Mismatch`. -/
def verifier (baseline : Option (Option String)) (exeHash : Option String) : VerifyResult :=
  match baseline, exeHash with
  | some (some expected), some h =>
    if h = trimNewline expected then VerifyResult.Match else VerifyResult.Mismatch
  | _, _ => VerifyResult.Mismatch

/-- One `*.conf` database config record of the per-record loop, with the
oracle outcomes of its fallible steps: `openOk` for `fopen`, `lines` the
file contents fed to the parse loop, `decryptRead` the `fread` byte count
from the `systemd-creds` pipe (`none` models `popen` failing), `connectOk`
for the per-record session-bus connection, `unlockOk` the outcome of the
`openDatabase` call (logged only, never affects control flow). -/
structure ConfigRecord where
  openOk : Bool
  lines : List String
  decryptRead : Option Nat
  connectOk : Bool
  unlockOk : Bool
deriving Repr

/-- Check `strncmp(line, tag, strlen(tag)) == 0` on the ASCII tags used by the
config parse loop. -/
def startsWithStr (line tag : String) : Bool :=
  line.toList.take tag.toList.length == tag.toList

/-- Pointer arithmetic `line + n`: drop the first `n` (ASCII) characters of a line. -/
def dropStr (s : String) (n : Nat) : String :=
  String.mk (s.toList.drop n)

/-- The config parse loop of the per-record body: lines are consumed one
by one; `DB=` and `KEY=` set the database and key-file paths (truncated at
the newline), a `PASSWORD:` line is skipped, and any other line stops the
loop after being counted (the password payload starts there). -/
def parseConf : List String → String → String → Nat → String × String × Nat
  | [], kdbxFile, keyFile, lineNo => (kdbxFile, keyFile, lineNo)
  | line :: rest, kdbxFile, keyFile, lineNo =>
    if startsWithStr line "DB=" then
      parseConf rest (trimNewline (dropStr line 3)) keyFile (lineNo + 1)
    else if startsWithStr line "KEY=" then
      parseConf rest kdbxFile (trimNewline (dropStr line 4)) (lineNo + 1)
    else if startsWithStr line "PASSWORD:" then
      parseConf rest kdbxFile keyFile (lineNo + 1)
    else (kdbxFile, keyFile, lineNo + 1)

/-- Parse a config record starting from empty fields, as the C body does. -/
def parseConfFile (lines : List String) : String × String × Nat :=
  parseConf lines "" "" 0

/-- One iteration of the per-record loop of `unlock_databases`, starting
at effective uid `euid`.  Returns `none` when the process exits via a
failed restore to uid 0, else the new effective uid together with the
`openDatabase` call made for this record (`none` when the record was
skipped before the call). -/
def processRecord (ok : Nat → Bool) (uid euid : Nat) (r : ConfigRecord) :
    Option (Nat × Option (String × String)) :=
  if r.openOk = false then some (euid, none)
  else
    match r.decryptRead with
    | none => some (euid, none)
    | some bytesRead =>
      if bytesRead = MAX_PASSWORD_SIZE then some (euid, none)
      else
        match change_euid ok uid euid with
        | none => none
        | some e1 =>
          if r.connectOk = false then
            match change_euid ok 0 e1 with
            | none => none
            | some e2 => some (e2, none)
          else
            match change_euid ok 0 e1 with
            | none => none
            | some e2 =>
              some (e2, some ((parseConfFile r.lines).1, (parseConfFile r.lines).2.1))

/-- The `openDatabase` call a record gives rise to, as a function of that
record alone: made exactly when its config file opens, decryption succeeds
below the size ceiling, and the session-bus connection succeeds. -/
def recordCall (r : ConfigRecord) : Option (String × String) :=
  if r.openOk = false then none
  else
    match r.decryptRead with
    | none => none
    | some bytesRead =>
      if bytesRead = MAX_PASSWORD_SIZE then none
      else if r.connectOk = false then none
      else some ((parseConfFile r.lines).1, (parseConfFile r.lines).2.1)

/-- The per-record loop of `unlock_databases` over the glob-matched config
records: also records the effective uid at the start of each iteration. -/
def processRecords (ok : Nat → Bool) (uid : Nat) :
    Nat → List ConfigRecord → Option (Nat × List Nat × List (Option (String × String)))
  | euid, [] => some (euid, [], [])
  | euid, r :: rest =>
    match processRecord ok uid euid r with
    | none => none
    | some (e1, call) =>
      match processRecords ok uid e1 rest with
      | none => none
      | some (ef, starts, calls) => some (ef, euid :: starts, call :: calls)

/-- The service-discovery loop of `unlock_databases`: up to `fuel`
iterations (one per second), each switching the effective uid to the user,
probing `GetConnectionUnixProcessID` for the KeePassXC bus name, and
switching back to 0; stops early on a nonzero pid.  Returns the pid found
(0 when none), the final effective uid, and the effective uid in force at
each probe; `none` when the process exits via a failed restore to uid 0. -/
def discoverLoop (ok : Nat → Bool) (uid : Nat) (probe : Nat → Nat) :
    Nat → Nat → Nat → Option (Nat × Nat × List Nat)
  | 0, _, euid => some (0, euid, [])
  | fuel + 1, i, euid =>
    match change_euid ok uid euid with
    | none => none
    | some e1 =>
      match change_euid ok 0 e1 with
      | none => none
      | some e2 =>
        if probe i = 0 then
          match discoverLoop ok uid probe fuel (i + 1) e2 with
          | none => none
          | some (p, ef, tr) => some (p, ef, e1 :: tr)
        else some (probe i, e2, [e1])

/-- Oracles for all the outside-world interactions of one
`unlock_databases` invocation. -/
structure UnlockEnv where
  lockedHint : Option Bool
  seteuidOk : Nat → Bool
  probe : Nat → Nat
  baseline : Option (Option String)
  exeHash : Option String
  exeRealPath : Option String
  configs : List ConfigRecord

/-- Where one `unlock_databases` invocation stopped. -/
inductive UnlockStatus where
  | skippedLocked
  | serviceUnavailable
  | missingBaseline
  | checksumMismatch
  | completed
deriving DecidableEq, Repr

/-- Observable outcome of one `unlock_databases` invocation. -/
structure UnlockResult where
  status : UnlockStatus
  alerts : List Alert
  calls : List (Option (String × String))
  recordStartEuids : List Nat
  probeEuids : List Nat
  finalEuid : Nat
deriving DecidableEq, Repr

/-- Function `unlock_databases`: the Credential Pipeline.  Re-checks `LockedHint`
first; then runs the bounded discovery loop; then the integrity
verification block (abort on missing baseline, abort with alert on
mismatch); then the per-record loop.  Returns `none` when the process
exits via a failed restore to uid 0. -/
def unlock_databases (env : UnlockEnv) (uid waitSecs euid0 : Nat) : Option UnlockResult :=
  if is_locked env.lockedHint then
    some ⟨UnlockStatus.skippedLocked, [], [], [], [], euid0⟩
  else
    match discoverLoop env.seteuidOk uid env.probe waitSecs 0 euid0 with
    | none => none
    | some (pid, e1, probeTrace) =>
      if pid = 0 then
        some ⟨UnlockStatus.serviceUnavailable, [], [], [], probeTrace, e1⟩
      else
        match verifyStage env.baseline env.exeHash env.exeRealPath pid with
        | VerifyStep.missingBaseline =>
          some ⟨UnlockStatus.missingBaseline, [], [], [], probeTrace, e1⟩
        | VerifyStep.mismatchAlert a =>
          some ⟨UnlockStatus.checksumMismatch, [a], [], [], probeTrace, e1⟩
        | VerifyStep.verified =>
          match processRecords env.seteuidOk uid e1 env.configs with
          | none => none
          | some (ef, starts, calls) =>
            some ⟨UnlockStatus.completed, [], calls, starts, probeTrace, ef⟩

/-- A login session as returned by `ListSessions` together with the
per-session properties the selection predicate reads. -/
structure Session where
  uid : Nat
  stype : String
  remote : Bool
  active : Bool
  lockedHint : Bool
  path : String
deriving DecidableEq, Repr

/-- Modelled from the spec: `session_valid_for_unlock` is declared in
`keepassxc-unlock-common.h`, which is not among the sources.  Per the spec
(section 4.1) and the comment in `select_session` ("pick the first session
that matches: user_id, Type=x11|wayland, Remote=false, Active=true"), a
session is valid when its type is x11 or wayland, it is not remote, and it
is active. -/
def session_valid_for_unlock (s : Session) : Bool :=
  (s.stype == "x11" || s.stype == "wayland") && !s.remote && s.active

/-- Function `select_session`: iterate the `ListSessions` result, skip sessions of
other users, and return the first remaining session that is valid for
unlock. -/
def select_session (userId : Nat) : List Session → Option Session
  | [] => none
  | s :: rest =>
    if s.uid != userId then select_session userId rest
    else if session_valid_for_unlock s then some s
    else select_session userId rest

/-- The startup retry loop of `main`: try `select_session` on the current
session list once per second, up to `fuel` attempts, starting at attempt
index `i`. -/
def selectRetryFrom (userId : Nat) (snaps : Nat → List Session) : Nat → Nat → Option Session
  | _, 0 => none
  | i, fuel + 1 =>
    match select_session userId (snaps i) with
    | some s => some s
    | none => selectRetryFrom userId snaps (i + 1) fuel

/-- The session-selection loop of `main`: up to 30 attempts, one per second. -/
def select_with_retry (userId : Nat) (snaps : Nat → List Session) : Option Session :=
  selectRetryFrom userId snaps 0 30

/-- The mutable fields of `session_loop_data`: the previously recorded
locked and active state of the monitored session. -/
structure SessionState where
  locked : Bool
  active : Bool
deriving DecidableEq, Repr

/-- One entry of the `PropertiesChanged` dictionary delivered to
`handle_session_event`. -/
inductive PropEvent where
  | lockedHint (value : Bool)
  | activeFlag (value : Bool)
  | other
deriving DecidableEq, Repr

/-- The per-entry body of `handle_session_event`: a `LockedHint` entry
triggers `unlock_databases` with a 10 second wait on a true-to-false
transition and records the new value; an `Active` entry triggers it with a
30 second wait on a false-to-true transition while not locked and records
the new value.  The returned list holds the wait budget of each pipeline
invocation made. -/
def handleEntry (st : SessionState) (e : PropEvent) : SessionState × List Nat :=
  match e with
  | PropEvent.lockedHint value =>
    if !value && st.locked then ({ st with locked := value }, [10])
    else ({ st with locked := value }, [])
  | PropEvent.activeFlag value =>
    if value && !st.active && !st.locked then ({ st with active := value }, [30])
    else ({ st with active := value }, [])
  | PropEvent.other => (st, [])

/-- Function `handle_session_event`: iterate the changed-properties dictionary of
one signal, applying `handleEntry` to each entry in order. -/
def handle_session_event (st : SessionState) : List PropEvent → SessionState × List Nat
  | [] => (st, [])
  | e :: rest =>
    let r1 := handleEntry st e
    let r2 := handle_session_event r1.1 rest
    (r2.1, r1.2 ++ r2.2)

/-- The initializer of `session_loop_data` in `main`:
`{loop, session_path, user_id, false, true}` — the recorded lock state
starts as the constant `false` and the active state as the constant
`true`. -/
def initial_session_state : SessionState := { locked := false, active := true }

/-! ### Helper lemmas about the Identity Switcher -/

lemma change_euid_restore {ok : Nat → Bool} {e e2 : Nat}
    (h : change_euid ok 0 e = some e2) : e2 = 0 := by
  unfold change_euid at h
  split at h
  · next h1 => injection h with h3; omega
  · split at h
    · injection h with h3; omega
    · simp at h

lemma change_euid_restore_ok {ok : Nat → Bool} (h0 : ok 0 = true) (e : Nat) :
    change_euid ok 0 e = some 0 := by
  unfold change_euid
  by_cases h1 : e = 0
  · simp [h1]
  · simp [h1, h0]

lemma change_euid_from_zero (ok : Nat → Bool) (uid : Nat) :
    change_euid ok uid 0 = some 0 ∨ change_euid ok uid 0 = some uid := by
  unfold change_euid
  by_cases h1 : (0 : Nat) = uid
  · left; simp [h1]
  · by_cases h2 : ok uid
    · right; simp [h1, h2]
    · left
      have h3 : uid ≠ 0 := fun hh => h1 (hh ▸ rfl)
      simp [h1, h2, h3]

lemma change_euid_all_ok {ok : Nat → Bool} (hok : ∀ u, ok u = true) (uid e : Nat) :
    change_euid ok uid e = some uid := by
  unfold change_euid
  by_cases h1 : e = uid
  · simp [h1]
  · simp [h1, hok uid]

/-! ### Claim theorems: Identity Switcher and lock re-check -/

/-- C4: `change_euid` is a no-op when the process is already at the
requested effective uid; a failed switch back to uid 0 terminates the
whole process (`none`); and a failed switch to any nonzero uid never
terminates the process — restoration failure is the only fatal case. -/
theorem change_euid_contract (ok : Nat → Bool) (uid euid : Nat) :
    (euid = uid → change_euid ok uid euid = some euid) ∧
    (euid ≠ 0 → ok 0 = false → change_euid ok 0 euid = none) ∧
    (uid ≠ 0 → change_euid ok uid euid ≠ none) := by
  refine ⟨fun h1 => by simp [change_euid, h1], fun h1 h2 => ?_, fun h1 => ?_⟩
  · simp [change_euid, h1, h2]
  · unfold change_euid
    by_cases h2 : euid = uid
    · simp [h2]
    · by_cases h3 : ok uid <;> simp [h2, h3, h1]

/-- Witness for `change_euid_contract` at concrete inputs: uid 3 at euid 3
is a no-op, a failed restore from euid 5 to uid 0 terminates, and a failed
switch from euid 5 to uid 7 does not terminate. -/
theorem change_euid_contract_witness :
    change_euid (fun _ => false) 3 3 = some 3 ∧
    change_euid (fun _ => false) 0 5 = none ∧
    change_euid (fun _ => false) 7 5 ≠ none :=
  ⟨(change_euid_contract (fun _ => false) 3 3).1 rfl,
   (change_euid_contract (fun _ => false) 0 5).2.1 (by decide) rfl,
   (change_euid_contract (fun _ => false) 7 5).2.2 (by decide)⟩

/-- C5: when the re-read lock-hint is true, `unlock_databases` aborts at
once: no probe, no alert, no record processed, no unlock call, and the
effective uid left exactly as it was. -/
theorem unlock_databases_locked_recheck_aborts (env : UnlockEnv) (uid waitSecs euid0 : Nat)
    (h : is_locked env.lockedHint = true) :
    unlock_databases env uid waitSecs euid0 =
      some ⟨UnlockStatus.skippedLocked, [], [], [], [], euid0⟩ := by
  simp [unlock_databases, h]

/-- Concrete environment whose lock re-check reads `LockedHint = true`. -/
def envLocked : UnlockEnv :=
  { lockedHint := some true, seteuidOk := fun _ => true, probe := fun _ => 7,
    baseline := some (some "ab"), exeHash := some "ab", exeRealPath := none, configs := [] }

/-- Witness for `unlock_databases_locked_recheck_aborts` on `envLocked`. -/
theorem unlock_databases_locked_recheck_aborts_witness :
    is_locked envLocked.lockedHint = true ∧
    unlock_databases envLocked 5 10 0 =
      some ⟨UnlockStatus.skippedLocked, [], [], [], [], 0⟩ :=
  ⟨rfl, unlock_databases_locked_recheck_aborts envLocked 5 10 0 rfl⟩

/-- C10: a failed read of the `LockedHint` property reports the session as
locked, so a pipeline invocation whose lock re-check cannot read the
property aborts without probing, alerting, or unlocking anything. -/
theorem lock_read_failure_fail_safe (env : UnlockEnv) (uid waitSecs euid0 : Nat)
    (h : env.lockedHint = none) :
    is_locked env.lockedHint = true ∧
    unlock_databases env uid waitSecs euid0 =
      some ⟨UnlockStatus.skippedLocked, [], [], [], [], euid0⟩ := by
  refine ⟨by simp [is_locked, h], ?_⟩
  simp [unlock_databases, is_locked, h]

/-- Concrete environment whose `LockedHint` property read fails. -/
def envLockReadFail : UnlockEnv :=
  { lockedHint := none, seteuidOk := fun _ => true, probe := fun _ => 7,
    baseline := some (some "ab"), exeHash := some "ab", exeRealPath := none, configs := [] }

/-- Witness for `lock_read_failure_fail_safe` on `envLockReadFail`. -/
theorem lock_read_failure_fail_safe_witness :
    is_locked envLockReadFail.lockedHint = true ∧
    unlock_databases envLockReadFail 5 10 0 =
      some ⟨UnlockStatus.skippedLocked, [], [], [], [], 0⟩ :=
  lock_read_failure_fail_safe envLockReadFail 5 10 0 rfl

/-- C3: for a signal delivering one property entry: a lock-hint transition
true-to-false makes exactly one pipeline invocation (wait 10) and records
the new lock-hint; an active transition false-to-true while unlocked makes
exactly one invocation (wait 30) and records the new flag; any active
change while locked makes zero invocations; and in every case the recorded
fields are updated to the delivered values. -/
theorem session_event_transitions (st : SessionState) (b : Bool) :
    (st.locked = true →
      handle_session_event st [PropEvent.lockedHint false] = (⟨false, st.active⟩, [10])) ∧
    (st.locked = false → st.active = false →
      handle_session_event st [PropEvent.activeFlag true] = (⟨false, true⟩, [30])) ∧
    (st.locked = true →
      handle_session_event st [PropEvent.activeFlag b] = (⟨true, b⟩, [])) ∧
    ((handle_session_event st [PropEvent.lockedHint b]).1 = ⟨b, st.active⟩ ∧
      (handle_session_event st [PropEvent.activeFlag b]).1 = ⟨st.locked, b⟩) := by
  obtain ⟨l, a⟩ := st
  refine ⟨fun h1 => ?_, fun h1 h2 => ?_, fun h1 => ?_, ?_, ?_⟩
  · subst h1; simp [handle_session_event, handleEntry]
  · subst h1; subst h2; simp [handle_session_event, handleEntry]
  · subst h1; simp [handle_session_event, handleEntry]
  · cases b <;> cases l <;> simp [handle_session_event, handleEntry]
  · cases b <;> cases l <;> cases a <;> simp [handle_session_event, handleEntry]

/-- Witness for `session_event_transitions`: from the locked state an
unlock event fires the pipeline once with wait 10, from the unlocked
inactive state an activation event fires it once with wait 30, and from
the locked state an activation event fires nothing. -/
theorem session_event_transitions_witness :
    handle_session_event ⟨true, true⟩ [PropEvent.lockedHint false] = (⟨false, true⟩, [10]) ∧
    handle_session_event ⟨false, false⟩ [PropEvent.activeFlag true] = (⟨false, true⟩, [30]) ∧
    handle_session_event ⟨true, false⟩ [PropEvent.activeFlag true] = (⟨true, true⟩, []) :=
  ⟨(session_event_transitions ⟨true, true⟩ true).1 rfl,
   (session_event_transitions ⟨false, false⟩ true).2.1 rfl rfl,
   (session_event_transitions ⟨true, false⟩ true).2.2.1 rfl⟩

/-! ### Helper lemmas about the service-discovery loop -/

lemma discoverLoop_final_euid {ok : Nat → Bool} {uid : Nat} {probe : Nat → Nat} :
    ∀ fuel i p ef tr, discoverLoop ok uid probe fuel i 0 = some (p, ef, tr) → ef = 0 := by
  intro fuel
  induction fuel with
  | zero =>
    intro i p ef tr h
    simp [discoverLoop] at h
    omega
  | succ fuel ih =>
    intro i p ef tr h
    unfold discoverLoop at h
    split at h
    · simp at h
    · next e1 heq1 =>
      split at h
      · simp at h
      · next e2 heq2 =>
        have he2 : e2 = 0 := change_euid_restore heq2
        subst he2
        split at h
        · split at h
          · simp at h
          · next p2 ef2 tr2 heq4 =>
            simp only [Option.some.injEq, Prod.mk.injEq] at h
            obtain ⟨hp2, hef, htr⟩ := h
            exact hef ▸ ih (i + 1) p2 ef2 tr2 heq4
        · simp only [Option.some.injEq, Prod.mk.injEq] at h
          omega

lemma discoverLoop_trace_length {ok : Nat → Bool} {uid : Nat} {probe : Nat → Nat} :
    ∀ fuel i euid p ef tr,
      discoverLoop ok uid probe fuel i euid = some (p, ef, tr) → tr.length ≤ fuel := by
  intro fuel
  induction fuel with
  | zero =>
    intro i euid p ef tr h
    simp [discoverLoop] at h
    simp [h]
  | succ fuel ih =>
    intro i euid p ef tr h
    unfold discoverLoop at h
    split at h
    · simp at h
    · next e1 heq1 =>
      split at h
      · simp at h
      · next e2 heq2 =>
        split at h
        · split at h
          · simp at h
          · next p2 ef2 tr2 heq4 =>
            simp only [Option.some.injEq, Prod.mk.injEq] at h
            obtain ⟨hp2, hef, htr⟩ := h
            have := ih (i + 1) e2 p2 ef2 tr2 heq4
            subst htr
            simp only [List.length_cons]
            omega
        · simp only [Option.some.injEq, Prod.mk.injEq] at h
          obtain ⟨hp2, hef, htr⟩ := h
          subst htr
          simp

lemma discoverLoop_probe_trace {ok : Nat → Bool} {uid : Nat} {probe : Nat → Nat}
    (hok : ∀ u, ok u = true) :
    ∀ fuel i euid p ef tr,
      discoverLoop ok uid probe fuel i euid = some (p, ef, tr) → ∀ x ∈ tr, x = uid := by
  intro fuel
  induction fuel with
  | zero =>
    intro i euid p ef tr h
    simp [discoverLoop] at h
    obtain ⟨h1, h2, h3⟩ := h
    subst h3
    simp
  | succ fuel ih =>
    intro i euid p ef tr h
    unfold discoverLoop at h
    split at h
    · simp at h
    · next e1 heq1 =>
      have he1 : e1 = uid := by
        rw [change_euid_all_ok hok uid euid] at heq1
        exact (Option.some.inj heq1).symm
      subst he1
      split at h
      · simp at h
      · next e2 heq2 =>
        split at h
        · split at h
          · simp at h
          · next p2 ef2 tr2 heq4 =>
            simp only [Option.some.injEq, Prod.mk.injEq] at h
            obtain ⟨hp2, hef, htr⟩ := h
            subst htr
            intro x hx
            rcases List.mem_cons.mp hx with h5 | h5
            · exact h5
            · exact ih (i + 1) e2 p2 ef2 tr2 heq4 x h5
        · simp only [Option.some.injEq, Prod.mk.injEq] at h
          obtain ⟨hp2, hef, htr⟩ := h
          subst htr
          simp

lemma discoverLoop_all_zero {ok : Nat → Bool} {uid : Nat} {probe : Nat → Nat}
    (hok : ∀ u, ok u = true) :
    ∀ fuel i, (∀ j, i ≤ j → j < i + fuel → probe j = 0) →
      discoverLoop ok uid probe fuel i 0 = some (0, 0, List.replicate fuel uid) := by
  intro fuel
  induction fuel with
  | zero => intro i hz; simp [discoverLoop]
  | succ fuel ih =>
    intro i hz
    have h3 : probe i = 0 := hz i (le_refl i) (by omega)
    unfold discoverLoop
    rw [change_euid_all_ok hok uid 0]
    simp only
    rw [change_euid_restore_ok (hok 0) uid]
    simp only
    rw [if_pos h3, ih (i + 1) (fun j hj1 hj2 => hz j (by omega) (by omega))]
    simp [List.replicate_succ]

/-- C9: service discovery performs at most `waitSecs` probes (one per
one-second loop iteration), each probe running under the target user's
effective uid inside a scoped switch; and when no probe within the wait
budget finds a process, the invocation reports service unavailable with no
alert, no record processed and no unlock call, and the effective uid
restored to 0. -/
theorem service_discovery_bounded (env : UnlockEnv) (uid waitSecs : Nat)
    (hok : ∀ u, env.seteuidOk u = true)
    (hnl : is_locked env.lockedHint = false) :
    (∀ r, unlock_databases env uid waitSecs 0 = some r →
      r.probeEuids.length ≤ waitSecs ∧ ∀ e ∈ r.probeEuids, e = uid) ∧
    ((∀ i, i < waitSecs → env.probe i = 0) →
      unlock_databases env uid waitSecs 0 =
        some ⟨UnlockStatus.serviceUnavailable, [], [], [],
          List.replicate waitSecs uid, 0⟩) := by
  constructor
  · intro r h
    unfold unlock_databases at h
    rw [hnl] at h
    simp only [Bool.false_eq_true, if_false] at h
    split at h
    · simp at h
    · next pid e1 tr heq1 =>
      have hlen := discoverLoop_trace_length waitSecs 0 0 pid e1 tr heq1
      have htr := discoverLoop_probe_trace hok waitSecs 0 0 pid e1 tr heq1
      split at h
      · obtain rfl := Option.some.inj h
        exact ⟨hlen, htr⟩
      · split at h
        · obtain rfl := Option.some.inj h
          exact ⟨hlen, htr⟩
        · obtain rfl := Option.some.inj h
          exact ⟨hlen, htr⟩
        · split at h
          · simp at h
          · next ef starts calls heq2 =>
            obtain rfl := Option.some.inj h
            exact ⟨hlen, htr⟩
  · intro hz
    unfold unlock_databases
    rw [hnl]
    simp only [Bool.false_eq_true, if_false]
    rw [discoverLoop_all_zero hok waitSecs 0 (fun j hj1 hj2 => hz j (by omega))]
    simp

/-- Concrete environment in which no probe ever finds the service. -/
def envNoService : UnlockEnv :=
  { lockedHint := some false, seteuidOk := fun _ => true, probe := fun _ => 0,
    baseline := some (some "ab"), exeHash := some "ab", exeRealPath := none, configs := [] }

/-- Witness for `service_discovery_bounded` on `envNoService` with a two
second wait: two probes, both at effective uid 5, then service
unavailable with nothing attempted. -/
theorem service_discovery_bounded_witness :
    unlock_databases envNoService 5 2 0 =
      some ⟨UnlockStatus.serviceUnavailable, [], [], [], [5, 5], 0⟩ := by
  have h := (service_discovery_bounded envNoService 5 2 (fun u => rfl) rfl).2
      (fun i hi => rfl)
  simpa using h

/-! ### Helper lemmas about the per-record loop -/

lemma processRecord_final_euid {ok : Nat → Bool} {uid : Nat} {r : ConfigRecord}
    {e2 : Nat} {c : Option (String × String)}
    (h : processRecord ok uid 0 r = some (e2, c)) : e2 = 0 := by
  unfold processRecord at h
  split at h
  · simp only [Option.some.injEq, Prod.mk.injEq] at h
    omega
  · split at h
    · simp only [Option.some.injEq, Prod.mk.injEq] at h
      omega
    · split at h
      · simp only [Option.some.injEq, Prod.mk.injEq] at h
        omega
      · split at h
        · simp at h
        · next e1 heq1 =>
          split at h
          · split at h
            · simp at h
            · next ee heq2 =>
              simp only [Option.some.injEq, Prod.mk.injEq] at h
              have := change_euid_restore heq2
              omega
          · split at h
            · simp at h
            · next ee heq2 =>
              simp only [Option.some.injEq, Prod.mk.injEq] at h
              have := change_euid_restore heq2
              omega

lemma processRecord_zero_ok {ok : Nat → Bool} (h0 : ok 0 = true) (uid : Nat)
    (r : ConfigRecord) : processRecord ok uid 0 r = some (0, recordCall r) := by
  unfold processRecord recordCall
  by_cases ho : r.openOk = false
  · simp [ho]
  · simp only [ho, if_false]
    cases hd : r.decryptRead with
    | none => simp
    | some bytesRead =>
      simp only
      by_cases hb : bytesRead = MAX_PASSWORD_SIZE
      · simp [hb]
      · simp only [hb, if_false]
        rcases change_euid_from_zero ok uid with h1 | h1 <;> rw [h1] <;> simp only <;>
          by_cases hc : r.connectOk = false <;>
            simp [hc, change_euid_restore_ok h0]

lemma processRecords_final_euid {ok : Nat → Bool} {uid : Nat} :
    ∀ rs ef starts calls, processRecords ok uid 0 rs = some (ef, starts, calls) →
      ef = 0 ∧ ∀ e ∈ starts, e = 0 := by
  intro rs
  induction rs with
  | nil =>
    intro ef starts calls h
    simp [processRecords] at h
    obtain ⟨h1, h2, h3⟩ := h
    subst h2
    simp [h1.symm]
  | cons r rest ih =>
    intro ef starts calls h
    unfold processRecords at h
    split at h
    · simp at h
    · next e1 call heq1 =>
      have he1 : e1 = 0 := processRecord_final_euid heq1
      subst he1
      split at h
      · simp at h
      · next ef2 starts2 calls2 heq2 =>
        simp only [Option.some.injEq, Prod.mk.injEq] at h
        obtain ⟨h1, h2, h3⟩ := h
        obtain ⟨hef2, hst2⟩ := ih ef2 starts2 calls2 heq2
        subst h2
        refine ⟨by omega, ?_⟩
        intro e he
        rcases List.mem_cons.mp he with h5 | h5
        · exact h5
        · exact hst2 e h5

lemma processRecords_zero_ok {ok : Nat → Bool} (h0 : ok 0 = true) (uid : Nat) :
    ∀ rs, processRecords ok uid 0 rs =
      some (0, List.replicate rs.length 0, rs.map recordCall) := by
  intro rs
  induction rs with
  | nil => simp [processRecords]
  | cons r rest ih =>
    unfold processRecords
    rw [processRecord_zero_ok h0 uid r]
    simp only
    rw [ih]
    simp [List.replicate_succ]

/-- C6: in the per-record loop, as long as the process can always restore
uid 0, every record is iterated and the `openDatabase` call for each
record depends only on that record's own outcomes (`recordCall`): an
unreadable config file, a failed decryption, an oversized decrypted
payload, a failed session-bus connection, or a rejected unlock call on one
record never prevents the calls of the other records. -/
theorem per_record_failure_isolation (ok : Nat → Bool) (uid : Nat)
    (rs : List ConfigRecord) (h0 : ok 0 = true) :
    processRecords ok uid 0 rs =
      some (0, List.replicate rs.length 0, rs.map recordCall) :=
  processRecords_zero_ok h0 uid rs

/-- A record whose every step succeeds. -/
def recGood : ConfigRecord :=
  { openOk := true, lines := ["DB=/home/u/a.kdbx"], decryptRead := some 12,
    connectOk := true, unlockOk := true }

/-- A record whose decryption fails (`popen` of `systemd-creds` fails). -/
def recDecryptFail : ConfigRecord :=
  { openOk := true, lines := ["DB=/home/u/b.kdbx"], decryptRead := none,
    connectOk := true, unlockOk := true }

/-- Witness for `per_record_failure_isolation`: with three records where
the second record's decryption fails, records one and three still get
their unlock calls. -/
theorem per_record_failure_isolation_witness :
    processRecords (fun _ => true) 5 0 [recGood, recDecryptFail, recGood] =
      some (0, [0, 0, 0],
        [some ("/home/u/a.kdbx", ""), none, some ("/home/u/a.kdbx", "")]) := by
  rw [per_record_failure_isolation (fun _ => true) 5 [recGood, recDecryptFail, recGood] rfl]
  decide

/-- C2: whenever a pipeline invocation entered at uid 0 returns (on any
path: lock re-check abort, discovery timeout, missing baseline, checksum
mismatch, or the per-record loop with any mix of per-record failures), the
effective uid equals 0, and every record iteration started at effective
uid 0. -/
theorem euid_restored_after_pipeline (env : UnlockEnv) (uid waitSecs : Nat)
    (r : UnlockResult) (h : unlock_databases env uid waitSecs 0 = some r) :
    r.finalEuid = 0 ∧ ∀ e ∈ r.recordStartEuids, e = 0 := by
  unfold unlock_databases at h
  by_cases hl : is_locked env.lockedHint
  · rw [hl] at h
    simp only [if_true] at h
    obtain rfl := Option.some.inj h
    simp
  · rw [Bool.not_eq_true] at hl
    rw [hl] at h
    simp only [Bool.false_eq_true, if_false] at h
    split at h
    · simp at h
    · next pid e1 tr heq1 =>
      have he1 : e1 = 0 := discoverLoop_final_euid waitSecs 0 pid e1 tr heq1
      subst he1
      split at h
      · obtain rfl := Option.some.inj h
        simp
      · split at h
        · obtain rfl := Option.some.inj h
          simp
        · obtain rfl := Option.some.inj h
          simp
        · split at h
          · simp at h
          · next ef starts calls heq2 =>
            obtain rfl := Option.some.inj h
            exact processRecords_final_euid env.configs ef starts calls heq2

/-- Concrete environment that reaches the per-record loop and completes. -/
def envComplete : UnlockEnv :=
  { lockedHint := some false, seteuidOk := fun _ => true, probe := fun _ => 7,
    baseline := some (some "ab\n"), exeHash := some "ab", exeRealPath := none,
    configs := [recGood] }

/-- Witness for `euid_restored_after_pipeline`: the completing run on
`envComplete` ends at effective uid 0, with its single record iteration
started at uid 0. -/
theorem euid_restored_after_pipeline_witness :
    (⟨UnlockStatus.completed, [], [some ("/home/u/a.kdbx", "")], [0], [5],
        0⟩ : UnlockResult).finalEuid = 0 :=
  (euid_restored_after_pipeline envComplete 5 1
    ⟨UnlockStatus.completed, [], [some ("/home/u/a.kdbx", "")], [0], [5], 0⟩
    (by decide)).1

/-! ### Helper lemmas about the integrity-verification block -/

lemma verifier_match_iff (b : Option (Option String)) (eh : Option String) :
    verifier b eh = VerifyResult.Match ↔
      ∃ line hash, b = some (some line) ∧ eh = some hash ∧ hash = trimNewline line := by
  cases b with
  | none => cases eh <;> simp [verifier]
  | some lineRead =>
    cases lineRead with
    | none => cases eh <;> simp [verifier]
    | some expected =>
      cases eh with
      | none => simp [verifier]
      | some hh =>
        by_cases heq : hh = trimNewline expected
        · simp [verifier, heq]
        · simp [verifier, heq]

lemma verifyStage_missing (eh x : Option String) (pid : Nat) :
    verifyStage none eh x pid = VerifyStep.missingBaseline := rfl

lemma verifyStage_mismatch_of (b : Option (Option String)) (eh x : Option String)
    (pid : Nat) (hb : b ≠ none) (hm : verifier b eh = VerifyResult.Mismatch) :
    verifyStage b eh x pid = VerifyStep.mismatchAlert ⟨pid, resolvedExe x pid⟩ := by
  cases b with
  | none => exact absurd rfl hb
  | some lineRead =>
    cases lineRead with
    | none => cases eh <;> simp [verifyStage]
    | some expected =>
      cases eh with
      | none => simp [verifyStage]
      | some hh =>
        by_cases heq : hh = trimNewline expected
        · simp [verifier, heq] at hm
        · simp [verifyStage, heq, bne_iff_ne]

lemma verifyStage_verified_verifier {b : Option (Option String)} {eh x : Option String}
    {pid : Nat} (h : verifyStage b eh x pid = VerifyStep.verified) :
    verifier b eh = VerifyResult.Match := by
  cases b with
  | none => simp [verifyStage] at h
  | some lineRead =>
    cases lineRead with
    | none => cases eh <;> simp [verifyStage] at h
    | some expected =>
      cases eh with
      | none => simp [verifyStage] at h
      | some hh =>
        by_cases heq : hh = trimNewline expected
        · simp [verifier, heq]
        · simp [verifyStage, heq, bne_iff_ne] at h

lemma verifyStage_alert_shape {b : Option (Option String)} {eh x : Option String}
    {pid : Nat} {a : Alert} (h : verifyStage b eh x pid = VerifyStep.mismatchAlert a) :
    a = ⟨pid, resolvedExe x pid⟩ := by
  cases b with
  | none => simp [verifyStage] at h
  | some lineRead =>
    simp only [verifyStage] at h
    split at h
    · exact (VerifyStep.mismatchAlert.inj h).symm
    · simp at h

/-- C1 (amended): the verifier yields `Match` exactly when the baseline
file opens, its line is read, the executable hashes successfully, and the
digests agree after trimming the trailing newline; every other case is
`Mismatch` and the invocation aborts before any `openDatabase` call — but
the desktop alert (with process id and resolved executable path) is
emitted only when the baseline file opened and the mismatch arose from
hashing, reading the line, or digest comparison; a missing baseline file
aborts with a log message only, no desktop alert. -/
theorem integrity_verifier_contract :
    (∀ b eh, verifier b eh = VerifyResult.Match ↔
      ∃ line hash, b = some (some line) ∧ eh = some hash ∧ hash = trimNewline line) ∧
    (∀ eh x pid, verifyStage none eh x pid = VerifyStep.missingBaseline) ∧
    (∀ b eh x pid, b ≠ none → verifier b eh = VerifyResult.Mismatch →
      verifyStage b eh x pid = VerifyStep.mismatchAlert ⟨pid, resolvedExe x pid⟩) ∧
    (∀ env uid waitSecs euid0 r, unlock_databases env uid waitSecs euid0 = some r →
      (r.status = UnlockStatus.completed →
        verifier env.baseline env.exeHash = VerifyResult.Match) ∧
      (r.status ≠ UnlockStatus.completed → r.calls = []) ∧
      (r.status = UnlockStatus.missingBaseline → r.alerts = []) ∧
      (r.status = UnlockStatus.checksumMismatch →
        ∃ p, p ≠ 0 ∧ r.alerts = [⟨p, resolvedExe env.exeRealPath p⟩])) := by
  refine ⟨verifier_match_iff, verifyStage_missing, verifyStage_mismatch_of, ?_⟩
  intro env uid waitSecs euid0 r h
  unfold unlock_databases at h
  split at h
  · obtain rfl := Option.some.inj h
    simp
  · split at h
    · simp at h
    · next pid e1 tr heq1 =>
      split at h
      · obtain rfl := Option.some.inj h
        simp
      · next hp =>
        split at h
        · obtain rfl := Option.some.inj h
          simp
        · next a heqv =>
          obtain rfl := Option.some.inj h
          have ha := verifyStage_alert_shape heqv
          subst ha
          simp only [UnlockResult.status]
          refine ⟨by simp, by simp, by simp, ?_⟩
          intro _
          exact ⟨pid, hp, rfl⟩
        · next heqv =>
          split at h
          · simp at h
          · next ef starts calls heq2 =>
            obtain rfl := Option.some.inj h
            refine ⟨fun _ => verifyStage_verified_verifier heqv, by simp, by simp, by simp⟩

/-- Concrete environment whose baseline file is missing while everything
else succeeds and the service process is found. -/
def envMissingBaseline : UnlockEnv :=
  { lockedHint := some false, seteuidOk := fun _ => true, probe := fun _ => 7,
    baseline := none, exeHash := some "ab", exeRealPath := some "/usr/bin/keepassxc",
    configs := [] }

/-- Counterexample to C1 as stated: with the baseline file missing the
verifier reports `Mismatch` and the unlock attempt is aborted, but the
alert list is empty — no desktop alert carrying the process id and
executable path is emitted for the missing-baseline case. -/
theorem missing_baseline_aborts_without_alert :
    verifier envMissingBaseline.baseline envMissingBaseline.exeHash = VerifyResult.Mismatch ∧
    unlock_databases envMissingBaseline 5 1 0 =
      some ⟨UnlockStatus.missingBaseline, [], [], [], [5], 0⟩ := by
  decide

/-- Witness for `integrity_verifier_contract` at concrete inputs: a
matching digest pair yields `Match`; a missing baseline yields the
no-alert abort; a failed baseline-line read yields the mismatch alert. -/
theorem integrity_verifier_contract_witness :
    verifier (some (some "ab\n")) (some "ab") = VerifyResult.Match ∧
    verifyStage none (some "ab") none 7 = VerifyStep.missingBaseline ∧
    verifyStage (some none) (some "ab") none 7 =
      VerifyStep.mismatchAlert ⟨7, resolvedExe none 7⟩ :=
  ⟨(integrity_verifier_contract.1 (some (some "ab\n")) (some "ab")).mpr
      ⟨"ab\n", "ab", rfl, rfl, by decide⟩,
   integrity_verifier_contract.2.1 (some "ab") none 7,
   integrity_verifier_contract.2.2.1 (some none) (some "ab") none 7 (by simp) (by decide)⟩

/-! ### Helper lemmas about session selection -/

lemma select_session_eq_find (userId : Nat) (l : List Session) :
    select_session userId l =
      l.find? (fun s => (s.uid == userId) && session_valid_for_unlock s) := by
  induction l with
  | nil => rfl
  | cons s rest ih =>
    by_cases h1 : s.uid = userId
    · by_cases h2 : session_valid_for_unlock s
      · simp [select_session, List.find?, h1, h2]
      · simp [select_session, List.find?, h1, h2, ih]
    · have hb : (s.uid == userId) = false := by simp [h1]
      simp [select_session, List.find?, h1, hb, ih]

lemma select_session_some {userId : Nat} {l : List Session} {s : Session}
    (h : select_session userId l = some s) :
    s.uid = userId ∧ session_valid_for_unlock s = true ∧ s ∈ l := by
  rw [select_session_eq_find] at h
  have hp := List.find?_some h
  simp only [Bool.and_eq_true, beq_iff_eq] at hp
  exact ⟨hp.1, hp.2, List.mem_of_find?_eq_some h⟩

lemma selectRetryFrom_some {userId : Nat} {snaps : Nat → List Session} :
    ∀ fuel i s, selectRetryFrom userId snaps i fuel = some s →
      ∃ j, i ≤ j ∧ j < i + fuel ∧ select_session userId (snaps j) = some s := by
  intro fuel
  induction fuel with
  | zero => intro i s h; simp [selectRetryFrom] at h
  | succ fuel ih =>
    intro i s h
    unfold selectRetryFrom at h
    split at h
    · next s2 heq =>
      obtain rfl := Option.some.inj h
      exact ⟨i, le_refl i, by omega, heq⟩
    · next heq =>
      obtain ⟨j, hj1, hj2, hj3⟩ := ih (i + 1) s h
      exact ⟨j, by omega, by omega, hj3⟩

lemma selectRetryFrom_none {userId : Nat} {snaps : Nat → List Session} :
    ∀ fuel i, (∀ j, i ≤ j → j < i + fuel → select_session userId (snaps j) = none) →
      selectRetryFrom userId snaps i fuel = none := by
  intro fuel
  induction fuel with
  | zero => intro i hz; rfl
  | succ fuel ih =>
    intro i hz
    unfold selectRetryFrom
    rw [hz i (le_refl i) (by omega)]
    exact ih (i + 1) (fun j hj1 hj2 => hz j (by omega) (by omega))

/-- C7: `select_session` returns exactly the first listed session whose
owning user matches and which is valid for unlock (local graphical type,
not remote, active); it never returns a session failing these conditions;
and the startup loop retries the selection up to 30 bounded attempts,
returning `none` when no attempt finds an eligible session. -/
theorem select_session_spec (userId : Nat) (l : List Session) (snaps : Nat → List Session) :
    select_session userId l =
      l.find? (fun s => (s.uid == userId) && session_valid_for_unlock s) ∧
    (∀ s, select_session userId l = some s →
      s.uid = userId ∧ session_valid_for_unlock s = true ∧ s ∈ l) ∧
    (∀ s, select_with_retry userId snaps = some s →
      ∃ j, j < 30 ∧ select_session userId (snaps j) = some s) ∧
    ((∀ j, j < 30 → select_session userId (snaps j) = none) →
      select_with_retry userId snaps = none) := by
  refine ⟨select_session_eq_find userId l, fun s h => select_session_some h, ?_, ?_⟩
  · intro s h
    obtain ⟨j, hj1, hj2, hj3⟩ := selectRetryFrom_some 30 0 s h
    exact ⟨j, by omega, hj3⟩
  · intro hz
    exact selectRetryFrom_none 30 0 (fun j hj1 hj2 => hz j (by omega))

/-- An eligible wayland session of user 5. -/
def sEligible : Session :=
  { uid := 5, stype := "wayland", remote := false, active := true,
    lockedHint := false, path := "/org/freedesktop/login1/session/_32" }

/-- A remote session of user 5, not eligible. -/
def sRemote : Session :=
  { uid := 5, stype := "wayland", remote := true, active := true,
    lockedHint := false, path := "/org/freedesktop/login1/session/_33" }

/-- Witness for `select_session_spec`: the session it picks out of a
concrete list matches the user, is valid for unlock and is in the list. -/
theorem select_session_spec_witness :
    sEligible.uid = 5 ∧ session_valid_for_unlock sEligible = true ∧
      sEligible ∈ [sRemote, sEligible] :=
  (select_session_spec 5 [sRemote, sEligible] (fun _ => [])).2.1 sEligible (by decide)

/-- An active but locked x11 session of user 5: eligible for selection
(the validity predicate does not read `LockedHint`). -/
def sLockedActive : Session :=
  { uid := 5, stype := "x11", remote := false, active := true,
    lockedHint := true, path := "/org/freedesktop/login1/session/_37" }

/-- Counterexample to C8 as stated: a locked-but-active session is
selected for monitoring, yet the recorded initial lock-hint is the
constant `false`, differing from the monitored session's actual
`LockedHint` property at monitoring start. -/
theorem initial_state_ignores_lock_property :
    select_session 5 [sLockedActive] = some sLockedActive ∧
    sLockedActive.lockedHint = true ∧
    initial_session_state.locked = false ∧
    initial_session_state.locked ≠ sLockedActive.lockedHint := by
  decide

/-- C8 (amended): the initial recorded state of the monitor is the
constant pair (lock-hint false, active true); the active flag agrees with
the selected session's active property — selection requires an active
session — but the lock-hint is not read from the session and starts false
regardless of the session's actual `LockedHint`. -/
theorem initial_state_constant (userId : Nat) (l : List Session) (s : Session)
    (h : select_session userId l = some s) :
    initial_session_state.locked = false ∧ initial_session_state.active = s.active := by
  obtain ⟨h1, h2, h3⟩ := select_session_some h
  simp only [session_valid_for_unlock, Bool.and_eq_true] at h2
  exact ⟨rfl, h2.2.symm⟩

/-- Witness for `initial_state_constant` on the concrete selection of
`sLockedActive`. -/
theorem initial_state_constant_witness :
    initial_session_state.locked = false ∧
      initial_session_state.active = sLockedActive.active :=
  initial_state_constant 5 [sLockedActive] sLockedActive (by decide)
